import Mathlib

/-!
Shallow embedding of the data-transmission-system repository
(`server.py`, `client.py`, `sync_pictures.py`) and proofs about its
wire protocol, watchdog and sync-poller logic.

Modelling conventions, used throughout:
* Bytes are natural numbers below 256; a socket stream is the list of all
  bytes the peer will deliver before closing, and `recv n` yields the next
  `min n available` bytes (`List.take` / `List.drop`).
* Python strings (paths, file names) are modelled as their byte sequences,
  so `len(s)` and `s.encode("utf-8")` coincide; this is exact for ASCII
  data, and the utf-8 decode on the receiving side is the identity.
* Timestamps are integer seconds (the checkpoint format
  `YYYY-MM-DD HH:MM:SS` has second granularity); the float division of the
  watchdog is exact rational division here.
-/

namespace DataTransmission

/-- `int.from_bytes(l, byteorder="big")`. -/
def fromBytesBE (l : List Nat) : Nat := l.foldl (fun a b => a * 256 + b) 0

/-- `n.to_bytes(len, byteorder="big")`: exactly `len` bytes, big-endian.
Python raises OverflowError when `n ≥ 256 ^ len`; theorems about encoded
fields carry that bound as a hypothesis. -/
def toBytesBE : Nat → Nat → List Nat
  | 0, _ => []
  | len + 1, n => toBytesBE len (n / 256) ++ [n % 256]

/-- The Windows path separators recognised by `os.path` (`ntpath`). -/
def isSep (b : Nat) : Bool := b = 47 || b = 92

/-- `os.path.basename`: the suffix after the last path separator. -/
def basename (p : List Nat) : List Nat :=
  (List.takeWhile (fun b => !(isSep b)) p.reverse).reverse

/-- `os.path.dirname`: what precedes the basename, with trailing separators
dropped (bare-drive root edge cases are not exercised by any claim). -/
def dirname (p : List Nat) : List Nat :=
  (((p.reverse).drop (basename p).length).dropWhile isSep).reverse

/-- `os.path.join(dir, name)` on Windows, for the shapes this program
produces: a `name` that carries a drive or starts with a separator replaces
`dir`; otherwise a backslash is inserted unless `dir` already ends with a
separator or a drive colon. -/
def pathJoin (dir name : List Nat) : List Nat :=
  if (match name with
      | b :: rest =>
        isSep b || (match rest with | c :: _ => c = 58 | [] => false)
      | [] => false) then
    name
  else
    match dir.getLast? with
    | none => name
    | some b => if isSep b || b = 58 then dir ++ name else dir ++ 92 :: name

/-- The daemon's filesystem: which paths name a regular file with which
content (`os.path.isfile` / file bytes), and which pass the
`os.access(path, os.R_OK)` check. -/
structure FS where
  files : List Nat → Option (List Nat)
  readable : List Nat → Bool

namespace Server

/-- server.py `check_file_readable`: the path must be a regular file and be
readable. -/
def check_file_readable (fs : FS) (file_path : List Nat) : Bool :=
  (fs.files file_path).isSome && fs.readable file_path

/-- server.py `send_image`: on a path failing `check_file_readable`, send a
4-byte name length of 0 and an 8-byte size of 0 and return False; otherwise
send the name length, the name (the basename of the path), the 8-byte file
size, then the file content in 4096-byte chunks (whose concatenation is the
content), and return True.  The first component is every byte written to
the socket; the `save_last_send_time` checkpoint side effect is not needed
by any claim and is not modelled. -/
def send_image (fs : FS) (file_path : List Nat) : List Nat × Bool :=
  if check_file_readable fs file_path then
    let content := (fs.files file_path).getD []
    let file_name := basename file_path
    (toBytesBE 4 file_name.length ++ file_name ++
       toBytesBE 8 content.length ++ content, true)
  else
    (toBytesBE 4 0 ++ toBytesBE 8 0, false)

/-- server.py `start_server`, the request-reading step: the daemon reads a
4-byte length, then that many bytes of path.  On the take/drop stream model
this is the whole decoding of one request. -/
def server_read_path (st : List Nat) : List Nat :=
  (st.drop 4).take (fromBytesBE (st.take 4))

/-- server.py `MAX_NO_SEND_HOURS = 24`. -/
def MAX_NO_SEND_HOURS : ℚ := 24

/-- server.py `check_need_restart`: no checkpoint means no restart;
otherwise restart iff `(now - last).total_seconds() / 3600 ≥ 24`. -/
def check_need_restart (last_send_time : Option ℤ) (now : ℤ) : Bool :=
  match last_send_time with
  | none => false
  | some t => decide (((now - t : ℤ) : ℚ) / 3600 ≥ MAX_NO_SEND_HOURS)

end Server

namespace Client

/-- The exit paths of client.py `receive_image`:
* `notFoundName`: `file_name_length == 0`, prints the not-found message and
  returns False;
* `notFoundSize`: `file_size == 0`, prints the size-zero message and
  returns False;
* `connectionLost`: an empty chunk inside the payload loop raises the
  connection-interrupted exception, which the handler prints before
  returning False;
* `saved p d`: the bytes `d` were written to path `p` and True returned. -/
inductive RecvResult where
  | notFoundName
  | notFoundSize
  | connectionLost
  | saved (save_path : List Nat) (data : List Nat)
deriving DecidableEq, Repr

/-- The Boolean that `receive_image` actually returns: True only when a
file was saved. -/
def receive_ok : RecvResult → Bool
  | .saved _ _ => true
  | _ => false

/-- The file `receive_image` writes (path and bytes), if any. -/
def receive_written : RecvResult → Option (List Nat × List Nat)
  | .saved p d => some (p, d)
  | _ => none

/-- The payload loop of client.py `receive_image`:
`while len(received_data) < file_size`, read a chunk of
`min(4096, file_size - len(received_data))` bytes; an empty chunk (peer
closed) raises.  Returns the accumulated bytes and the unread rest of the
stream, or `none` when the connection was lost. -/
def recvAll (file_size : Nat) (received : List Nat) (st : List Nat) :
    Option (List Nat × List Nat) :=
  if h1 : received.length < file_size then
    if h2 : st.take (min 4096 (file_size - received.length)) = [] then none
    else
      recvAll file_size
        (received ++ st.take (min 4096 (file_size - received.length)))
        (st.drop (st.take (min 4096 (file_size - received.length))).length)
  else some (received, st)
termination_by file_size - received.length
decreasing_by
  simp only [List.length_append]
  have h3 : 0 < (st.take (min 4096 (file_size - received.length))).length :=
    List.length_pos.mpr h2
  omega

/-- client.py `receive_image` on a modelled stream: read 4 bytes of name
length (a short read decodes as the big-endian value of whatever arrived),
return False on 0; read the name; read 8 bytes of size, return False on 0;
otherwise run the payload loop and, on success, write the data to
`os.path.join(save_dir, file_name)` and return True.  The second component
is the part of the stream left unread at exit. -/
def receive_image (st : List Nat) (save_dir : List Nat) :
    RecvResult × List Nat :=
  let file_name_length := fromBytesBE (st.take 4)
  let st1 := st.drop 4
  if file_name_length = 0 then (.notFoundName, st1)
  else
    let file_name := st1.take file_name_length
    let st2 := st1.drop file_name_length
    let file_size := fromBytesBE (st2.take 8)
    let st3 := st2.drop 8
    if file_size = 0 then (.notFoundSize, st3)
    else
      match recvAll file_size [] st3 with
      | none => (.connectionLost, [])
      | some (data, st4) => (.saved (pathJoin save_dir file_name) data, st4)

/-- client.py `request_image` composed with the daemon's loop: the client
sends the 4-byte path length and the path, `start_server` reads them and
calls `send_image`, and the client decodes the daemon's bytes with
`receive_image`. -/
def request_image (server : FS) (image_name save_dir : List Nat) :
    RecvResult × List Nat :=
  receive_image
    (Server.send_image server
      (Server.server_read_path (toBytesBE 4 image_name.length ++ image_name))).1
    save_dir

end Client

namespace Sync

/-- sync_pictures.py `MAX_NO_DOWNLOAD_HOURS = 2`. -/
def MAX_NO_DOWNLOAD_HOURS : ℚ := 2

/-- sync_pictures.py `check_need_restart`: no recorded download means no
restart; otherwise restart iff
`(now - last_download).total_seconds() / 3600 ≥ 2`. -/
def check_need_restart (last_download_time : Option ℤ) (now : ℤ) : Bool :=
  match last_download_time with
  | none => false
  | some t => decide (((now - t : ℤ) : ℚ) / 3600 ≥ MAX_NO_DOWNLOAD_HOURS)

/-- The contents of `sync_progress.json` as written by `save_progress`. -/
structure Progress where
  last_created_time : Option Nat
  last_task_id : Option (List Nat)
  last_download_time : Option Nat
deriving DecidableEq, Repr

/-- sync_pictures.py `save_progress`: the progress file is rewritten from
scratch with the two cursor keys; `last_download_time` is present only when
a download time is passed (the source guards on the truthiness of
`download_time_str`, and the time strings it passes are nonempty). -/
def save_progress (created_time : Option Nat) (task_id : Option (List Nat))
    (download_time : Option Nat) : Progress :=
  { last_created_time := created_time
    last_task_id := task_id
    last_download_time := download_time }

/-- sync_pictures.py `update_download_time`: reload the progress and rewrite
it with the same cursor and `now` as the download time. -/
def update_download_time (p : Progress) (now : Nat) : Progress :=
  save_progress p.last_created_time p.last_task_id (some now)

/-- A `jlyxz.PIC_MATCHTASK` row: the task id (a string, compared
lexicographically), the creation time in integer seconds, and the eight
nullable image-path columns. -/
structure Row where
  TASK_ID : List Nat
  CREATED_TIME : Nat
  TARE_IMAGE_PATH1 : Option (List Nat)
  TARE_IMAGE_PATH2 : Option (List Nat)
  TARE_IMAGE_PATH3 : Option (List Nat)
  TARE_IMAGE_PATH4 : Option (List Nat)
  GROSS_IMAGE_PATH1 : Option (List Nat)
  GROSS_IMAGE_PATH2 : Option (List Nat)
  GROSS_IMAGE_PATH3 : Option (List Nat)
  GROSS_IMAGE_PATH4 : Option (List Nat)
deriving DecidableEq, Repr

/-- The `paths` list built at the top of `download_for_row`. -/
def rowPaths (r : Row) : List (Option (List Nat)) :=
  [r.TARE_IMAGE_PATH1, r.TARE_IMAGE_PATH2, r.TARE_IMAGE_PATH3,
   r.TARE_IMAGE_PATH4, r.GROSS_IMAGE_PATH1, r.GROSS_IMAGE_PATH2,
   r.GROSS_IMAGE_PATH3, r.GROSS_IMAGE_PATH4]

/-- ASCII whitespace, for Python `str.strip()`. -/
def isSpace (b : Nat) : Bool :=
  b = 32 || b = 9 || b = 10 || b = 13 || b = 11 || b = 12

/-- Python `str.strip()`. -/
def strip (s : List Nat) : List Nat :=
  ((s.dropWhile isSpace).reverse.dropWhile isSpace).reverse

/-- sync_pictures.py `LOCAL_ROOT = "D:\\"` (the three characters `D`, `:`,
backslash, which does not end in a bare colon). -/
def LOCAL_ROOT : List Nat := [68, 58, 92]

/-- `os.path.splitdrive` for a drive-letter path: a second character `:`
splits the two-character drive off. -/
def splitdrive (p : List Nat) : List Nat × List Nat :=
  match p with
  | a :: b :: rest => if b = 58 then ([a, b], rest) else ([], p)
  | _ => ([], p)

/-- sync_pictures.py `ensure_local_path`: drop the drive of the remote
path, strip leading separators, and join the rest onto `LOCAL_ROOT`; the
`os.makedirs` side effect is not modelled. -/
def ensure_local_path (remote_path : List Nat) : List Nat :=
  pathJoin LOCAL_ROOT ((splitdrive remote_path).2.dropWhile isSep)

/-- The poller's local filesystem: path to file bytes
(`os.path.getsize` is the length). -/
def LocalFS := List Nat → Option (List Nat)

/-- The running state of `download_for_row`: the remote paths for which a
connection was opened so far, the local filesystem, and the
`has_successful_download` flag. -/
structure DownloadOutcome where
  requests : List (List Nat)
  fs : LocalFS
  has_successful_download : Bool

/-- The skip condition of `download_for_row`:
`os.path.exists(local_path) and os.path.getsize(local_path) > 0`. -/
def path_exists_nonempty (fs : LocalFS) (q : List Nat) : Bool :=
  (fs q).isSome && ((fs q).getD []).length > 0

/-- One iteration of the path loop of sync_pictures.py `download_for_row`:
skip null columns, strip the path and skip it when empty, skip it when the
destination file already exists with positive size; otherwise open a
connection (`request_image` with `save_dir = os.path.dirname(local_path)`)
and record any file the client saved. -/
def download_step (server : FS) (acc : DownloadOutcome)
    (column : Option (List Nat)) : DownloadOutcome :=
  match column with
  | none => acc
  | some raw =>
    let remote_path := strip raw
    if remote_path = [] then acc
    else
      let local_path := ensure_local_path remote_path
      if path_exists_nonempty acc.fs local_path
      then acc
      else
        let save_dir := dirname local_path
        let result := (Client.request_image server remote_path save_dir).1
        let fs2 : LocalFS := fun q =>
          match Client.receive_written result with
          | some pd => if q = pd.1 then some pd.2 else acc.fs q
          | none => acc.fs q
        { requests := acc.requests ++ [remote_path]
          fs := fs2
          has_successful_download :=
            acc.has_successful_download || Client.receive_ok result }

/-- sync_pictures.py `download_for_row` over the eight path columns.  The
trailing `update_download_time` call, guarded by
`has_successful_download`, is applied by the caller model `run_once_step`
(the flag is returned for it). -/
def download_for_row (server : FS) (row : Row) (fs : LocalFS) :
    DownloadOutcome :=
  (rowPaths row).foldl (download_step server) ⟨[], fs, false⟩

/-- Strict lexicographic order on byte strings, as the database compares
`TASK_ID` values. -/
def lexLt : List Nat → List Nat → Bool
  | [], [] => false
  | [], _ :: _ => true
  | _ :: _, [] => false
  | a :: as, b :: bs =>
    if a < b then true else if b < a then false else lexLt as bs

/-- Python `last_task_id or "0"`: a null or empty id falls back to the
one-character string `0`. -/
def orZero : Option (List Nat) → List Nat
  | none => [48]
  | some i => if i = [] then [48] else i

/-- The WHERE clause of `fetch_new_rows`:
`CREATED_TIME > :t OR (CREATED_TIME = :t AND TASK_ID > :id)`. -/
def afterCursor (last_time : Nat) (last_task_id : List Nat) (r : Row) :
    Bool :=
  decide (last_time < r.CREATED_TIME) ||
    (decide (r.CREATED_TIME = last_time) && lexLt last_task_id r.TASK_ID)

/-- The ORDER BY key comparison `(CREATED_TIME, TASK_ID)` as a reflexive
total order on rows. -/
def rowLe (a b : Row) : Prop :=
  a.CREATED_TIME < b.CREATED_TIME ∨
    (a.CREATED_TIME = b.CREATED_TIME ∧ lexLt b.TASK_ID a.TASK_ID = false)

instance : DecidableRel rowLe := fun a b => by
  unfold rowLe
  infer_instance

/-- sync_pictures.py `fetch_new_rows`: with no recorded cursor time, every
row of the table; otherwise the rows matching the WHERE clause; in both
cases ordered by `(CREATED_TIME, TASK_ID)`.  The SQL query is modelled as
filter plus sort over the table. -/
def fetch_new_rows (table : List Row) (last_created_time : Option Nat)
    (last_task_id : Option (List Nat)) : List Row :=
  match last_created_time with
  | none => List.insertionSort rowLe table
  | some t =>
    List.insertionSort rowLe
      (table.filter (fun r => afterCursor t (orZero last_task_id) r))

/-- The state threaded through `run_once`: the progress file and the local
filesystem. -/
structure SyncState where
  progress : Progress
  fs : LocalFS

/-- One row iteration of the loop in sync_pictures.py `run_once`:
`download_for_row` (whose guarded `update_download_time` rewrites the
progress with the still-old cursor), then `save_progress` with the row's
`(CREATED_TIME, TASK_ID)` and no download time — which overwrites the
intermediate write unconditionally. -/
def run_once_step (server : FS) (now : Nat) (st : SyncState) (row : Row) :
    SyncState :=
  let d := download_for_row server row st.fs
  let _progress1 :=
    if d.has_successful_download
    then update_download_time st.progress now
    else st.progress
  { progress := save_progress (some row.CREATED_TIME) (some row.TASK_ID) none
    fs := d.fs }

/-- sync_pictures.py `run_once`: fetch the rows past the recorded cursor;
when there are none, the state is untouched; otherwise process each row in
order, persisting the cursor after each one. -/
def run_once (server : FS) (now : Nat) (table : List Row)
    (st : SyncState) : SyncState :=
  let df := fetch_new_rows table st.progress.last_created_time
    st.progress.last_task_id
  if df.isEmpty then st
  else df.foldl (run_once_step server now) st

end Sync

/-! Auxiliary lemmas about the byte codec and the stream model. -/

theorem length_toBytesBE (len n : Nat) : (toBytesBE len n).length = len := by
  induction len generalizing n with
  | zero => rfl
  | succ k ih => simp [toBytesBE, ih]

theorem fromBytesBE_append_singleton (l : List Nat) (b : Nat) :
    fromBytesBE (l ++ [b]) = fromBytesBE l * 256 + b := by
  simp [fromBytesBE, List.foldl_append]

theorem fromBytesBE_toBytesBE (len n : Nat) (h : n < 256 ^ len) :
    fromBytesBE (toBytesBE len n) = n := by
  induction len generalizing n with
  | zero =>
    simp [toBytesBE, fromBytesBE]
    omega
  | succ k ih =>
    have hdiv : n / 256 < 256 ^ k := by
      rw [Nat.div_lt_iff_lt_mul (by norm_num : 0 < 256)]
      calc n < 256 ^ (k + 1) := h
        _ = 256 ^ k * 256 := by ring
    calc fromBytesBE (toBytesBE (k + 1) n)
        = fromBytesBE (toBytesBE k (n / 256) ++ [n % 256]) := rfl
      _ = fromBytesBE (toBytesBE k (n / 256)) * 256 + n % 256 :=
          fromBytesBE_append_singleton _ _
      _ = n / 256 * 256 + n % 256 := by rw [ih _ hdiv]
      _ = n := by omega

theorem take_app_of_length (a b : List Nat) (n : Nat) (h : a.length = n) :
    (a ++ b).take n = a := by
  subst h
  simp

theorem drop_app_of_length (a b : List Nat) (n : Nat) (h : a.length = n) :
    (a ++ b).drop n = b := by
  subst h
  simp

namespace Client

theorem recvAll_done (file_size : Nat) (received st : List Nat)
    (h : file_size ≤ received.length) :
    recvAll file_size received st = some (received, st) := by
  rw [recvAll]
  simp [Nat.not_lt.mpr h]

theorem recvAll_exact_aux (fuel : Nat) :
    ∀ (file_size : Nat) (received st : List Nat),
      file_size - received.length ≤ fuel →
      file_size - received.length ≤ st.length →
      recvAll file_size received st =
        some (received ++ st.take (file_size - received.length),
          st.drop (file_size - received.length)) := by
  induction fuel with
  | zero =>
    intro file_size received st hfuel _
    have h0 : file_size - received.length = 0 := by omega
    rw [recvAll]
    simp [h0, Nat.not_lt.mpr (by omega : file_size ≤ received.length)]
  | succ k ih =>
    intro file_size received st hfuel hst
    by_cases hlt : received.length < file_size
    · have hm1 : 1 ≤ min 4096 (file_size - received.length) := by omega
      have hmle : min 4096 (file_size - received.length) ≤ st.length := by
        omega
      have hchunklen :
          (st.take (min 4096 (file_size - received.length))).length =
            min 4096 (file_size - received.length) := by
        rw [List.length_take]
        omega
      have hchunkne :
          st.take (min 4096 (file_size - received.length)) ≠ [] := by
        intro hnil
        have := congrArg List.length hnil
        rw [hchunklen] at this
        simp at this
        omega
      rw [recvAll]
      rw [dif_pos hlt, dif_neg hchunkne]
      rw [hchunklen]
      have hlen2 :
          (received ++ st.take (min 4096 (file_size - received.length))).length
            = received.length + min 4096 (file_size - received.length) := by
        rw [List.length_append, hchunklen]
      have hrec := ih file_size
        (received ++ st.take (min 4096 (file_size - received.length)))
        (st.drop (min 4096 (file_size - received.length)))
        (by rw [hlen2]; omega)
        (by rw [hlen2, List.length_drop]; omega)
      rw [hrec, hlen2]
      have harith :
          file_size -
              (received.length + min 4096 (file_size - received.length)) =
            file_size - received.length -
              min 4096 (file_size - received.length) := by omega
      have htake :
          st.take (min 4096 (file_size - received.length)) ++
              (st.drop (min 4096 (file_size - received.length))).take
                (file_size - received.length -
                  min 4096 (file_size - received.length)) =
            st.take (file_size - received.length) := by
        rw [← List.take_add]
        congr 1
        omega
      have hdrop :
          (st.drop (min 4096 (file_size - received.length))).drop
              (file_size - received.length -
                min 4096 (file_size - received.length)) =
            st.drop (file_size - received.length) := by
        rw [List.drop_drop]
        congr 1
        omega
      rw [harith, List.append_assoc, htake, hdrop]
    · have h0 : file_size - received.length = 0 := by omega
      rw [recvAll]
      simp [h0, hlt]

theorem recvAll_exact (file_size : Nat) (received st : List Nat)
    (hst : file_size - received.length ≤ st.length) :
    recvAll file_size received st =
      some (received ++ st.take (file_size - received.length),
        st.drop (file_size - received.length)) :=
  recvAll_exact_aux (file_size - received.length) file_size received st
    le_rfl hst

theorem recvAll_lost_aux (fuel : Nat) :
    ∀ (file_size : Nat) (received st : List Nat),
      file_size - received.length ≤ fuel →
      st.length < file_size - received.length →
      recvAll file_size received st = none := by
  induction fuel with
  | zero =>
    intro file_size received st hfuel hst
    omega
  | succ k ih =>
    intro file_size received st hfuel hst
    have hlt : received.length < file_size := by omega
    have hm1 : 1 ≤ min 4096 (file_size - received.length) := by omega
    match hste : st with
    | [] =>
      rw [recvAll]
      rw [dif_pos hlt, dif_pos (by simp)]
    | b :: rest =>
      have hstne : b :: rest ≠ [] := by simp
      have hchunkne :
          (b :: rest).take (min 4096 (file_size - received.length)) ≠ [] := by
        rw [Ne, List.take_eq_nil_iff]
        push_neg
        exact ⟨by omega, hstne⟩
      rw [recvAll]
      rw [dif_pos hlt, dif_neg hchunkne]
      have hchunklen :
          ((b :: rest).take (min 4096 (file_size - received.length))).length =
            min (min 4096 (file_size - received.length))
              (b :: rest).length := List.length_take _ _
      have hchunkpos :
          0 < ((b :: rest).take
            (min 4096 (file_size - received.length))).length :=
        List.length_pos.mpr hchunkne
      apply ih
      · rw [List.length_append]
        omega
      · rw [List.length_append, List.length_drop]
        omega

theorem recvAll_lost (file_size : Nat) (received st : List Nat)
    (hst : st.length < file_size - received.length) :
    recvAll file_size received st = none :=
  recvAll_lost_aux (file_size - received.length) file_size received st
    le_rfl hst

theorem pow_256_4 : (256 : Nat) ^ 4 = 2 ^ 32 := by norm_num

theorem pow_256_8 : (256 : Nat) ^ 8 = 2 ^ 64 := by norm_num

/-- Decoding a well-formed header followed by at least `size` payload
bytes: the client saves exactly the first `size` payload bytes under
`pathJoin save_dir name`, leaving the rest of the stream unread. -/
theorem receive_image_saved (dir name payload : List Nat) (size : Nat)
    (hn : name ≠ []) (hnl : name.length < 2 ^ 32) (hs : size ≠ 0)
    (hsz : size < 2 ^ 64) (hpl : size ≤ payload.length) :
    receive_image
        (toBytesBE 4 name.length ++ name ++ toBytesBE 8 size ++ payload)
        dir =
      (.saved (pathJoin dir name) (payload.take size), payload.drop size) := by
  have hw : toBytesBE 4 name.length ++ name ++ toBytesBE 8 size ++ payload =
      toBytesBE 4 name.length ++
        (name ++ (toBytesBE 8 size ++ payload)) := by
    simp [List.append_assoc]
  have hnl4 : name.length < 256 ^ 4 := by rw [pow_256_4]; exact hnl
  have hsz8 : size < 256 ^ 8 := by rw [pow_256_8]; exact hsz
  have hn0 : name.length ≠ 0 := by simpa using hn
  rw [hw]
  simp only [receive_image]
  rw [take_app_of_length _ _ 4 (length_toBytesBE 4 _),
    drop_app_of_length _ _ 4 (length_toBytesBE 4 _),
    fromBytesBE_toBytesBE 4 name.length hnl4, if_neg hn0,
    take_app_of_length _ _ name.length rfl,
    drop_app_of_length _ _ name.length rfl,
    take_app_of_length _ _ 8 (length_toBytesBE 8 _),
    drop_app_of_length _ _ 8 (length_toBytesBE 8 _),
    fromBytesBE_toBytesBE 8 size hsz8, if_neg hs,
    recvAll_exact size [] payload (by simpa using hpl)]
  simp

/-- Decoding a well-formed header whose announced `size` exceeds the
payload bytes actually delivered: the payload loop hits an empty chunk and
the connection-lost exit is taken. -/
theorem receive_image_truncated (dir name payload : List Nat) (size : Nat)
    (hn : name ≠ []) (hnl : name.length < 2 ^ 32) (hs : size ≠ 0)
    (hsz : size < 2 ^ 64) (hpl : payload.length < size) :
    receive_image
        (toBytesBE 4 name.length ++ name ++ toBytesBE 8 size ++ payload)
        dir =
      (.connectionLost, []) := by
  have hw : toBytesBE 4 name.length ++ name ++ toBytesBE 8 size ++ payload =
      toBytesBE 4 name.length ++
        (name ++ (toBytesBE 8 size ++ payload)) := by
    simp [List.append_assoc]
  have hnl4 : name.length < 256 ^ 4 := by rw [pow_256_4]; exact hnl
  have hsz8 : size < 256 ^ 8 := by rw [pow_256_8]; exact hsz
  have hn0 : name.length ≠ 0 := by simpa using hn
  rw [hw]
  simp only [receive_image]
  rw [take_app_of_length _ _ 4 (length_toBytesBE 4 _),
    drop_app_of_length _ _ 4 (length_toBytesBE 4 _),
    fromBytesBE_toBytesBE 4 name.length hnl4, if_neg hn0,
    take_app_of_length _ _ name.length rfl,
    drop_app_of_length _ _ name.length rfl,
    take_app_of_length _ _ 8 (length_toBytesBE 8 _),
    drop_app_of_length _ _ 8 (length_toBytesBE 8 _),
    fromBytesBE_toBytesBE 8 size hsz8, if_neg hs,
    recvAll_lost size [] payload (by simpa using hpl)]

/-- Whenever the 4-byte name-length field decodes to 0 the client returns
on the not-found exit at once, leaving everything past the first four
stream bytes unread. -/
theorem receive_image_sentinel (st dir : List Nat)
    (h : fromBytesBE (st.take 4) = 0) :
    receive_image st dir = (.notFoundName, st.drop 4) := by
  simp [receive_image, h]

/-- A stream that closes before the 4-byte name-length field is complete:
the short read is interpreted as the big-endian value of the bytes that
did arrive, and the result is one of the two NotFound exits. -/
theorem receive_image_short (st dir : List Nat) (h : st.length < 4) :
    (receive_image st dir).1 =
      (if fromBytesBE st = 0 then .notFoundName else .notFoundSize) := by
  have htake : st.take 4 = st := List.take_of_length_le (by omega)
  have hdrop : st.drop 4 = [] := List.drop_eq_nil_of_le (by omega)
  by_cases h0 : fromBytesBE st = 0
  · simp [receive_image, htake, hdrop, h0]
  · simp [receive_image, htake, hdrop, h0, fromBytesBE]
    split <;> rfl

end Client

namespace Server

theorem send_image_readable (fs : FS) (p content : List Nat)
    (hc : fs.files p = some content) (hr : fs.readable p = true) :
    send_image fs p =
      (toBytesBE 4 (basename p).length ++ basename p ++
        toBytesBE 8 content.length ++ content, true) := by
  simp [send_image, check_file_readable, hc, hr]

theorem send_image_unreadable (fs : FS) (p : List Nat)
    (h : check_file_readable fs p = false) :
    send_image fs p = (toBytesBE 4 0 ++ toBytesBE 8 0, false) := by
  simp [send_image, h]

theorem server_read_path_roundtrip (p : List Nat) (hp : p.length < 2 ^ 32) :
    server_read_path (toBytesBE 4 p.length ++ p) = p := by
  have hp4 : p.length < 256 ^ 4 := by rw [Client.pow_256_4]; exact hp
  rw [server_read_path,
    take_app_of_length _ _ 4 (length_toBytesBE 4 _),
    drop_app_of_length _ _ 4 (length_toBytesBE 4 _),
    fromBytesBE_toBytesBE 4 p.length hp4, List.take_length]

end Server

namespace Sync

/-! Order lemmas for the `(CREATED_TIME, TASK_ID)` key. -/

theorem lexLt_irrefl (a : List Nat) : lexLt a a = false := by
  induction a with
  | nil => rfl
  | cons x xs ih => simp [lexLt, ih]

theorem lexLt_cons_iff (x y : Nat) (xs ys : List Nat) :
    lexLt (x :: xs) (y :: ys) = true ↔
      (x < y ∨ (x = y ∧ lexLt xs ys = true)) := by
  by_cases h1 : x < y
  · simp [lexLt, h1]
  · by_cases h2 : y < x
    · simp only [lexLt, if_neg h1, if_pos h2]
      constructor
      · intro h
        cases h
      · intro h
        rcases h with h | ⟨he, _⟩
        · omega
        · omega
    · have hxy : x = y := by omega
      simp [lexLt, h1, h2, hxy]

theorem lexLt_trans : ∀ (a b c : List Nat),
    lexLt a b = true → lexLt b c = true → lexLt a c = true := by
  intro a
  induction a with
  | nil =>
    intro b c hab hbc
    cases b with
    | nil => simp [lexLt] at hab
    | cons y ys =>
      cases c with
      | nil => simp [lexLt] at hbc
      | cons z zs => simp [lexLt]
  | cons x xs ih =>
    intro b c hab hbc
    cases b with
    | nil => simp [lexLt] at hab
    | cons y ys =>
      cases c with
      | nil => simp [lexLt] at hbc
      | cons z zs =>
        rw [lexLt_cons_iff] at hab hbc ⊢
        rcases hab with h | ⟨he, hl⟩
        · rcases hbc with h2 | ⟨he2, _⟩
          · exact Or.inl (by omega)
          · exact Or.inl (by omega)
        · rcases hbc with h2 | ⟨he2, hl2⟩
          · exact Or.inl (by omega)
          · exact Or.inr ⟨by omega, ih ys zs hl hl2⟩

theorem lexLt_asymm (a b : List Nat) (h : lexLt a b = true) :
    lexLt b a = false := by
  by_contra hf
  have hba : lexLt b a = true := by
    cases hv : lexLt b a
    · exact absurd hv hf
    · rfl
  have := lexLt_trans a b a h hba
  rw [lexLt_irrefl] at this
  cases this

theorem lexLt_total : ∀ (a b : List Nat),
    lexLt a b = false → lexLt b a = false → a = b := by
  intro a
  induction a with
  | nil =>
    intro b hab _
    cases b with
    | nil => rfl
    | cons y ys => simp [lexLt] at hab
  | cons x xs ih =>
    intro b hab hba
    cases b with
    | nil => simp [lexLt] at hba
    | cons y ys =>
      have h1 : ¬ (x < y ∨ (x = y ∧ lexLt xs ys = true)) := by
        rw [← lexLt_cons_iff]
        simp [hab]
      have h2 : ¬ (y < x ∨ (y = x ∧ lexLt ys xs = true)) := by
        rw [← lexLt_cons_iff]
        simp [hba]
      push_neg at h1 h2
      have hxy : x = y := by omega
      have hxs : lexLt xs ys = false := by
        cases hv : lexLt xs ys
        · rfl
        · exact absurd hv (h1.2 hxy)
      have hys : lexLt ys xs = false := by
        cases hv : lexLt ys xs
        · rfl
        · exact absurd hv (h2.2 hxy.symm)
      rw [hxy, ih ys hxs hys]

theorem rowLe_refl (a : Row) : rowLe a a :=
  Or.inr ⟨rfl, lexLt_irrefl _⟩

instance : IsTotal Row rowLe := by
  constructor
  intro a b
  rcases Nat.lt_trichotomy a.CREATED_TIME b.CREATED_TIME with h | h | h
  · exact Or.inl (Or.inl h)
  · cases hv : lexLt b.TASK_ID a.TASK_ID
    · exact Or.inl (Or.inr ⟨h, hv⟩)
    · exact Or.inr (Or.inr ⟨h.symm, lexLt_asymm _ _ hv⟩)
  · exact Or.inr (Or.inl h)

instance : IsTrans Row rowLe := by
  constructor
  intro a b c hab hbc
  rcases hab with h1 | ⟨he1, hl1⟩
  · rcases hbc with h2 | ⟨he2, _⟩
    · exact Or.inl (by omega)
    · exact Or.inl (by omega)
  · rcases hbc with h2 | ⟨he2, hl2⟩
    · exact Or.inl (by omega)
    · refine Or.inr ⟨by omega, ?_⟩
      cases hv : lexLt c.TASK_ID a.TASK_ID
      · rfl
      · cases hab2 : lexLt a.TASK_ID b.TASK_ID
        · have := lexLt_total _ _ hab2 hl1
          rw [← this] at hl2
          rw [hl2] at hv
          cases hv
        · have := lexLt_trans _ _ _ hv hab2
          rw [this] at hl2
          cases hl2

theorem afterCursor_iff (t : Nat) (i : List Nat) (r : Row) :
    afterCursor t i r = true ↔
      (t < r.CREATED_TIME ∨
        (r.CREATED_TIME = t ∧ lexLt i r.TASK_ID = true)) := by
  simp [afterCursor]

/-- In a `Pairwise R` list, every element is the last one or relates to it. -/
theorem pairwise_rel_getLast {α : Type} {R : α → α → Prop} :
    ∀ (l : List α), l.Pairwise R → ∀ (x : α), x ∈ l → ∀ (hl : l ≠ []),
      x = l.getLast hl ∨ R x (l.getLast hl) := by
  intro l
  induction l with
  | nil =>
    intro _ x hx
    cases hx
  | cons a rest ih =>
    intro hp x hx hl
    rcases List.pairwise_cons.mp hp with ⟨ha, hrest⟩
    cases rest with
    | nil =>
      simp at hx
      subst hx
      exact Or.inl (by simp)
    | cons b rs =>
      have hne : (b :: rs) ≠ [] := by simp
      have hlast : (a :: b :: rs).getLast hl = (b :: rs).getLast hne :=
        List.getLast_cons hne
      rcases List.mem_cons.mp hx with rfl | hx2
      · right
        rw [hlast]
        exact ha _ (List.getLast_mem hne)
      · rcases ih hrest x hx2 hne with h | h
        · left
          rw [hlast]
          exact h
        · right
          rw [hlast]
          exact h

/-- After the fold of `run_once` over a batch ending in row `r`, the
progress file holds exactly `r`'s cursor and no download time. -/
theorem foldl_run_once_progress (server : FS) (now : Nat) :
    ∀ (l : List Row) (st : SyncState) (r : Row), l.getLast? = some r →
      (l.foldl (run_once_step server now) st).progress =
        save_progress (some r.CREATED_TIME) (some r.TASK_ID) none := by
  intro l
  induction l with
  | nil =>
    intro st r h
    cases h
  | cons a rest ih =>
    intro st r h
    cases rest with
    | nil =>
      simp at h
      subst h
      simp [run_once_step]
    | cons b rs =>
      rw [List.foldl_cons]
      apply ih
      rw [← h]
      rfl

end Sync

namespace Sync

/-- If every path of the row already has a non-empty destination file, the
whole path loop leaves the accumulator untouched. -/
theorem foldl_download_skip (server : FS) :
    ∀ (paths : List (Option (List Nat))) (acc : DownloadOutcome),
      (∀ column ∈ paths, ∀ p, column = some p → strip p ≠ [] →
        path_exists_nonempty acc.fs (ensure_local_path (strip p)) = true) →
      paths.foldl (download_step server) acc = acc := by
  intro paths
  induction paths with
  | nil =>
    intro acc _
    rfl
  | cons c rest ih =>
    intro acc h
    rw [List.foldl_cons]
    have hstep : download_step server acc c = acc := by
      match c with
      | none => rfl
      | some raw =>
        by_cases hempty : strip raw = []
        · simp [download_step, hempty]
        · have hready := h (some raw) (List.mem_cons_self _ _) raw rfl hempty
          simp [download_step, hempty, hready]
    rw [hstep]
    exact ih acc (fun column hc => h column (List.mem_cons_of_mem _ hc))

/-- A row all of whose destinations are satisfied downloads nothing: the
outcome is the initial accumulator, in particular the request list is
empty. -/
theorem download_for_row_skips (server : FS) (row : Row) (fs : LocalFS)
    (h : ∀ column ∈ rowPaths row, ∀ p, column = some p → strip p ≠ [] →
      path_exists_nonempty fs (ensure_local_path (strip p)) = true) :
    download_for_row server row fs = ⟨[], fs, false⟩ :=
  foldl_download_skip server (rowPaths row) ⟨[], fs, false⟩ h

/-- A row key below the cursor row never matches the cursor row's WHERE
clause. -/
theorem afterCursor_false_of_rowLe (c r : Row) (h : rowLe r c) :
    afterCursor c.CREATED_TIME c.TASK_ID r = false := by
  rcases h with hlt | ⟨heq, hfalse⟩
  · have h1 : ¬ (c.CREATED_TIME < r.CREATED_TIME) := by omega
    have h2 : r.CREATED_TIME ≠ c.CREATED_TIME := by omega
    simp [afterCursor, h1, h2]
  · have h1 : ¬ (c.CREATED_TIME < r.CREATED_TIME) := by omega
    simp [afterCursor, h1, heq, hfalse]

/-- When the fetched batch ends in row `r`, `run_once` leaves the progress
file at exactly `r`'s cursor with no download time. -/
theorem run_once_progress_getLast (server : FS) (now : Nat)
    (table : List Row) (st : SyncState) (r : Row)
    (hr : (fetch_new_rows table st.progress.last_created_time
      st.progress.last_task_id).getLast? = some r) :
    (run_once server now table st).progress =
      save_progress (some r.CREATED_TIME) (some r.TASK_ID) none := by
  have hne : fetch_new_rows table st.progress.last_created_time
      st.progress.last_task_id ≠ [] := by
    intro he
    rw [he] at hr
    cases hr
  simp only [run_once]
  rw [if_neg (fun hemp => hne (List.isEmpty_iff.mp hemp))]
  exact foldl_run_once_progress server now _ st r hr

end Sync

/-! Claim theorems. -/

/-- C1 counterexample: an empty source file (a byte sequence of length
n = 0).  The daemon accepts the request and announces size 0, but the
client treats a zero size as not-found: it returns False and writes
nothing, so the round-trip does not reconstruct the empty content at the
destination — no destination file exists at all, refuting the claim for
n = 0. -/
theorem C1_empty_file_counterexample :
    Server.check_file_readable
        ⟨fun p => if p = [97] then some [] else none, fun _ => true⟩
        [97] = true ∧
      (Client.request_image
          ⟨fun p => if p = [97] then some [] else none, fun _ => true⟩
          [97] [100]).1 = Client.RecvResult.notFoundSize ∧
      Client.receive_written
        (Client.request_image
          ⟨fun p => if p = [97] then some [] else none, fun _ => true⟩
          [97] [100]).1 = none := by
  refine ⟨by decide, by decide, by decide⟩

/-- C1 (amended): for every byte sequence of length n ≥ 1 (with n below
2^64 and a path whose basename is nonempty and fits the 32-bit length
field) written to a server-side source file, one full client/daemon
request-response cycle — the client sends the path, the daemon streams the
file, the client persists it — saves a destination file whose contents
equal the source byte-for-byte. -/
theorem C1_roundtrip (fs : FS) (p dir content : List Nat)
    (hfile : fs.files p = some content) (hread : fs.readable p = true)
    (hp : p.length < 2 ^ 32) (hn : basename p ≠ [])
    (hnl : (basename p).length < 2 ^ 32) (hc : content ≠ [])
    (hcl : content.length < 2 ^ 64) :
    (Client.request_image fs p dir).1 =
      Client.RecvResult.saved (pathJoin dir (basename p)) content := by
  unfold Client.request_image
  rw [Server.server_read_path_roundtrip p hp,
    Server.send_image_readable fs p content hfile hread,
    Client.receive_image_saved dir (basename p) content content.length hn hnl
      (fun h0 => hc (List.length_eq_zero.mp h0)) hcl le_rfl]
  simp

/-- C1 witness: a two-byte file round-trips intact. -/
theorem C1_roundtrip_witness :
    (Client.request_image
        ⟨fun p => if p = [97] then some [7, 8] else none, fun _ => true⟩
        [97] [100]).1 =
      Client.RecvResult.saved (pathJoin [100] (basename [97])) [7, 8] :=
  C1_roundtrip
    ⟨fun p => if p = [97] then some [7, 8] else none, fun _ => true⟩
    [97] [100] [7, 8] (by decide) (by decide) (by decide) (by decide)
    (by decide) (by decide) (by decide)

/-- C2 counterexample: on the not-found sentinel stream (the daemon's 4
zero bytes of name length followed by its 8 zero bytes of size), the
decoder returns NotFound after consuming only the 4 name-length bytes: the
8-byte size field is left unread in the stream, contradicting the claim
that it is read and consumed before returning. -/
theorem C2_size_field_counterexample :
    (Client.receive_image [0, 0, 0, 0, 0, 0, 0, 0, 0, 0, 0, 0] [100]).1 =
        Client.RecvResult.notFoundName ∧
      (Client.receive_image [0, 0, 0, 0, 0, 0, 0, 0, 0, 0, 0, 0] [100]).2 =
        [0, 0, 0, 0, 0, 0, 0, 0] := by
  exact ⟨rfl, rfl⟩

/-- C2 (amended): whenever the header decoder observes nameLength == 0 it
returns NotFound immediately, consuming only the 4-byte length field; the
8-byte size field that the sender still transmits with value 0 stays
unread.  Framing of the two peers is unaffected only because the
connection is closed afterwards and never reused. -/
theorem C2_sentinel_skips_size (st dir : List Nat)
    (h : fromBytesBE (st.take 4) = 0) :
    (Client.receive_image st dir).1 = Client.RecvResult.notFoundName ∧
      (Client.receive_image st dir).2 = st.drop 4 := by
  rw [Client.receive_image_sentinel st dir h]
  exact ⟨rfl, rfl⟩

/-- C2 witness: the sentinel stream leaves its 8 trailing size bytes
unread. -/
theorem C2_sentinel_skips_size_witness :
    (Client.receive_image [0, 0, 0, 0, 0, 0, 0, 0, 0, 0, 0, 0] [46]).1 =
        Client.RecvResult.notFoundName ∧
      (Client.receive_image [0, 0, 0, 0, 0, 0, 0, 0, 0, 0, 0, 0] [46]).2 =
        [0, 0, 0, 0, 0, 0, 0, 0] :=
  C2_sentinel_skips_size [0, 0, 0, 0, 0, 0, 0, 0, 0, 0, 0, 0] [46]
    (by decide)

/-- C3 counterexample: a stream that closes after delivering only 3 of the
4 name-length bytes.  The claim demands a protocol-error failure, but the
short read [0, 0, 1] is interpreted as the valid value 1 and decoding then
takes the ordinary size-zero NotFound exit — no error distinct from
not-found exists on this path. -/
theorem C3_short_read_counterexample :
    fromBytesBE ([0, 0, 1] : List Nat) = 1 ∧
      (Client.receive_image [0, 0, 1] [100]).1 =
        Client.RecvResult.notFoundSize := by
  exact ⟨rfl, rfl⟩

/-- C3 (amended): a stream that closes before the 4-byte name-length field
is complete does not produce a protocol error: the decoder interprets the
bytes that did arrive as the big-endian value of the field (an empty read
decodes as 0) and returns one of the two ordinary NotFound exits
accordingly. -/
theorem C3_short_read (st dir : List Nat) (h : st.length < 4) :
    (Client.receive_image st dir).1 =
      (if fromBytesBE st = 0 then Client.RecvResult.notFoundName
       else Client.RecvResult.notFoundSize) :=
  Client.receive_image_short st dir h

/-- C3 witness: a 3-byte stream decodes as name length 2. -/
theorem C3_short_read_witness :
    (Client.receive_image [0, 0, 2] [100]).1 =
      (if fromBytesBE [0, 0, 2] = 0 then Client.RecvResult.notFoundName
       else Client.RecvResult.notFoundSize) :=
  C3_short_read [0, 0, 2] [100] (by decide)

/-- C4: when the daemon announces `size` payload bytes but the connection
closes after fewer, the client takes the connection-lost exit (the raised
connection-interrupted error, a path distinct from both NotFound exits,
whose message the handler prints), returns False, and writes no file under
any name: the partially received bytes are discarded.  (The Boolean result
itself collapses to False exactly as for NotFound; the distinguishing
signal is the error path and its log line, modelled by the RecvResult exit
constructors.) -/
theorem C4_truncated_payload (dir name payload : List Nat) (size : Nat)
    (hn : name ≠ []) (hnl : name.length < 2 ^ 32) (hs : size ≠ 0)
    (hsz : size < 2 ^ 64) (hshort : payload.length < size) :
    (Client.receive_image
        (toBytesBE 4 name.length ++ name ++ toBytesBE 8 size ++ payload)
        dir).1 = Client.RecvResult.connectionLost ∧
      Client.receive_written
        (Client.receive_image
          (toBytesBE 4 name.length ++ name ++ toBytesBE 8 size ++ payload)
          dir).1 = none ∧
      Client.receive_ok
        (Client.receive_image
          (toBytesBE 4 name.length ++ name ++ toBytesBE 8 size ++ payload)
          dir).1 = false ∧
      Client.RecvResult.connectionLost ≠ Client.RecvResult.notFoundName ∧
      Client.RecvResult.connectionLost ≠ Client.RecvResult.notFoundSize := by
  rw [Client.receive_image_truncated dir name payload size hn hnl hs hsz
    hshort]
  exact ⟨rfl, rfl, rfl, by decide, by decide⟩

/-- C4 witness: 2 of 3 announced bytes arrive, the client reports the
connection lost. -/
theorem C4_truncated_payload_witness :
    (Client.receive_image
        (toBytesBE 4 ([97] : List Nat).length ++ [97] ++
          toBytesBE 8 3 ++ [1, 2])
        [100]).1 = Client.RecvResult.connectionLost :=
  (C4_truncated_payload [100] [97] [1, 2] 3 (by decide) (by decide)
    (by decide) (by decide) (by decide)).1

/-- C5: check_need_restart, in both the daemon instantiation (threshold 24
hours) and the poller instantiation (threshold 2 hours), returns false
whenever no checkpoint exists, and otherwise returns true iff the elapsed
seconds from the checkpoint time to now reach the threshold: elapsed
exactly equal to the threshold triggers a restart, one second below does
not. -/
theorem C5_watchdog_threshold (now t : ℤ) :
    Server.check_need_restart none now = false ∧
      Sync.check_need_restart none now = false ∧
      (Server.check_need_restart (some t) now = true ↔
        24 * 3600 ≤ now - t) ∧
      (Sync.check_need_restart (some t) now = true ↔
        2 * 3600 ≤ now - t) := by
  refine ⟨rfl, rfl, ?_, ?_⟩
  · rw [Server.check_need_restart]
    rw [decide_eq_true_iff, ge_iff_le, Server.MAX_NO_SEND_HOURS,
      le_div_iff (by norm_num : (0 : ℚ) < 3600)]
    constructor
    · intro h
      exact_mod_cast h
    · intro h
      exact_mod_cast h
  · rw [Sync.check_need_restart]
    rw [decide_eq_true_iff, ge_iff_le, Sync.MAX_NO_DOWNLOAD_HOURS,
      le_div_iff (by norm_num : (0 : ℚ) < 3600)]
    constructor
    · intro h
      exact_mod_cast h
    · intro h
      exact_mod_cast h

/-- C6: for a requested path that is not a regular file or lacks read
permission, the daemon answers with the sentinel header nameLength=0,
size=0 — any two failing requests produce byte-identical wire output — the
client returns the not-found False result, and no local file is
created. -/
theorem C6_not_found_sentinel (fs : FS) (p dir : List Nat)
    (h : Server.check_file_readable fs p = false) :
    Server.send_image fs p = (toBytesBE 4 0 ++ toBytesBE 8 0, false) ∧
      (Client.receive_image (Server.send_image fs p).1 dir).1 =
        Client.RecvResult.notFoundName ∧
      Client.receive_ok
        (Client.receive_image (Server.send_image fs p).1 dir).1 = false ∧
      Client.receive_written
        (Client.receive_image (Server.send_image fs p).1 dir).1 = none ∧
      (∀ (fs2 : FS) (p2 : List Nat),
        Server.check_file_readable fs2 p2 = false →
          (Server.send_image fs2 p2).1 = (Server.send_image fs p).1) := by
  have hw := Server.send_image_unreadable fs p h
  have hsent : (Server.send_image fs p).1 = toBytesBE 4 0 ++ toBytesBE 8 0 :=
    by rw [hw]
  have hdec : (Client.receive_image (Server.send_image fs p).1 dir).1 =
      Client.RecvResult.notFoundName := by
    rw [hsent, Client.receive_image_sentinel _ _ (by decide)]
  refine ⟨hw, hdec, ?_, ?_, ?_⟩
  · rw [hdec]
    rfl
  · rw [hdec]
    rfl
  · intro fs2 p2 h2
    rw [Server.send_image_unreadable fs2 p2 h2, hsent]

/-- C6 witness: a path that exists nowhere yields the sentinel and no
file. -/
theorem C6_not_found_sentinel_witness :
    (Client.receive_image
        (Server.send_image ⟨fun _ => none, fun _ => true⟩ [97]).1 [100]).1 =
      Client.RecvResult.notFoundName :=
  (C6_not_found_sentinel ⟨fun _ => none, fun _ => true⟩ [97] [100]
    (by decide)).2.1

/-- C10: on a successful transfer the client writes the received bytes to
os.path.join of the destination directory and the name decoded from the
header, the name used verbatim — whatever bytes it holds, separators
included — and the daemon fills the header name with the basename of the
requested path, which is the only influence the request has on the saved
filename. -/
theorem C10_saved_filename (dir name payload : List Nat) (size : Nat)
    (hn : name ≠ []) (hnl : name.length < 2 ^ 32) (hs : size ≠ 0)
    (hsz : size < 2 ^ 64) (hpl : payload.length = size) :
    (Client.receive_image
        (toBytesBE 4 name.length ++ name ++ toBytesBE 8 size ++ payload)
        dir).1 =
      Client.RecvResult.saved (pathJoin dir name) (payload.take size) ∧
    (∀ (fs : FS) (p content : List Nat),
      fs.files p = some content → fs.readable p = true →
        (Server.send_image fs p).1 =
          toBytesBE 4 (basename p).length ++ basename p ++
            toBytesBE 8 content.length ++ content) := by
  constructor
  · rw [Client.receive_image_saved dir name payload size hn hnl hs hsz
      (le_of_eq hpl.symm)]
  · intro fs p content h1 h2
    rw [Server.send_image_readable fs p content h1 h2]

/-- C7: the download step is skip-if-exists idempotent: when a first run of
`download_for_row` fully succeeded — every destination file of the item
exists and is non-empty in the resulting local filesystem — a second run
over the same item issues zero network requests, because every path whose
destination exists with positive size is skipped before any connection is
opened. -/
theorem C7_idempotent_skip (server : FS) (row : Sync.Row)
    (fs0 : Sync.LocalFS)
    (hdone : ∀ column ∈ Sync.rowPaths row, ∀ p, column = some p →
      Sync.strip p ≠ [] →
      Sync.path_exists_nonempty (Sync.download_for_row server row fs0).fs
        (Sync.ensure_local_path (Sync.strip p)) = true) :
    (Sync.download_for_row server row
      (Sync.download_for_row server row fs0).fs).requests = [] := by
  rw [Sync.download_for_row_skips server row
    (Sync.download_for_row server row fs0).fs hdone]

/-- C7 witness: an item with one real path column whose destination file
already exists non-empty issues no requests on the second run — the
skip-if-exists check fires for that path in both runs. -/
theorem C7_idempotent_skip_witness :
    (Sync.download_for_row ⟨fun _ => none, fun _ => false⟩
      ⟨[49], 0, some [68, 58, 92, 120], none, none, none, none, none, none,
        none⟩
      (Sync.download_for_row ⟨fun _ => none, fun _ => false⟩
        ⟨[49], 0, some [68, 58, 92, 120], none, none, none, none, none,
          none, none⟩
        (fun q => if q = [68, 58, 92, 120] then some [1] else
          none)).fs).requests = [] := by
  apply C7_idempotent_skip
  intro column hc p hp hs
  simp [Sync.rowPaths] at hc
  rcases hc with hc | hc
  · rw [hc] at hp
    injection hp with hpe
    subst hpe
    decide
  · rw [hc] at hp
    cases hp

/-- C8: cursor monotonicity and strictly-greater resumption: a fetch with
cursor `(t0, i0)` returns exactly the table rows whose `(orderTime, id)`
key is lexicographically strictly greater than the cursor; processing the
fetched batch persists, after its last row, a cursor equal to that row's
`(CREATED_TIME, TASK_ID)`; and re-fetching with that final cursor returns
zero rows.  (Task ids are assumed nonempty, as the `or "0"` fallback of
the source otherwise replaces an empty id.) -/
theorem C8_cursor_monotonic (server : FS) (now : Nat)
    (table : List Sync.Row) (st : Sync.SyncState) (t0 : Nat)
    (i0 : List Nat) (lastRow : Sync.Row)
    (hct : st.progress.last_created_time = some t0)
    (hti : st.progress.last_task_id = some i0)
    (hi0 : i0 ≠ [])
    (hids : ∀ r ∈ table, r.TASK_ID ≠ [])
    (hlast : (Sync.fetch_new_rows table (some t0) (some i0)).getLast? =
      some lastRow) :
    (∀ r, r ∈ Sync.fetch_new_rows table (some t0) (some i0) ↔
        (r ∈ table ∧ (t0 < r.CREATED_TIME ∨
          (r.CREATED_TIME = t0 ∧ Sync.lexLt i0 r.TASK_ID = true)))) ∧
      (Sync.run_once server now table st).progress.last_created_time =
        some lastRow.CREATED_TIME ∧
      (Sync.run_once server now table st).progress.last_task_id =
        some lastRow.TASK_ID ∧
      Sync.fetch_new_rows table (some lastRow.CREATED_TIME)
        (some lastRow.TASK_ID) = [] := by
  have horz : Sync.orZero (some i0) = i0 := by simp [Sync.orZero, hi0]
  have hmem : ∀ r, r ∈ Sync.fetch_new_rows table (some t0) (some i0) ↔
      (r ∈ table ∧ Sync.afterCursor t0 i0 r = true) := by
    intro r
    simp only [Sync.fetch_new_rows, horz, List.mem_insertionSort,
      List.mem_filter]
  have hdf_ne : Sync.fetch_new_rows table (some t0) (some i0) ≠ [] := by
    intro he
    rw [he] at hlast
    cases hlast
  have hgetlast_eq :
      (Sync.fetch_new_rows table (some t0) (some i0)).getLast hdf_ne =
        lastRow := by
    have h2 := List.getLast?_eq_getLast
      (Sync.fetch_new_rows table (some t0) (some i0)) hdf_ne
    rw [hlast] at h2
    exact (Option.some_injective _ h2).symm
  have hlast_df : lastRow ∈ Sync.fetch_new_rows table (some t0) (some i0) := by
    rw [← hgetlast_eq]
    exact List.getLast_mem hdf_ne
  have hlast_table : lastRow ∈ table := ((hmem lastRow).mp hlast_df).1
  have hafter_last : Sync.afterCursor t0 i0 lastRow = true :=
    ((hmem lastRow).mp hlast_df).2
  have hsorted :
      (Sync.fetch_new_rows table (some t0) (some i0)).Pairwise Sync.rowLe := by
    simp only [Sync.fetch_new_rows, horz]
    exact List.sorted_insertionSort Sync.rowLe _
  have hle_last : ∀ x ∈ Sync.fetch_new_rows table (some t0) (some i0),
      Sync.rowLe x lastRow := by
    intro x hx
    rcases Sync.pairwise_rel_getLast _ hsorted x hx hdf_ne with he | hrel
    · rw [he, hgetlast_eq]
      exact Sync.rowLe_refl lastRow
    · rw [hgetlast_eq] at hrel
      exact hrel
  have hprog := Sync.run_once_progress_getLast server now table st lastRow
    (by rw [hct, hti]; exact hlast)
  refine ⟨?_, ?_, ?_, ?_⟩
  · intro r
    rw [hmem r, Sync.afterCursor_iff]
  · rw [hprog]
    rfl
  · rw [hprog]
    rfl
  · have horz2 : Sync.orZero (some lastRow.TASK_ID) = lastRow.TASK_ID := by
      simp [Sync.orZero, hids lastRow hlast_table]
    have hfilter : table.filter
        (fun r => Sync.afterCursor lastRow.CREATED_TIME lastRow.TASK_ID r) =
          [] := by
      rw [List.filter_eq_nil_iff]
      intro r hr
      rw [Bool.not_eq_true]
      cases hb : Sync.afterCursor t0 i0 r with
      | true =>
        exact Sync.afterCursor_false_of_rowLe lastRow r
          (hle_last r ((hmem r).mpr ⟨hr, hb⟩))
      | false =>
        have hnb : ¬ (t0 < r.CREATED_TIME ∨
            (r.CREATED_TIME = t0 ∧ Sync.lexLt i0 r.TASK_ID = true)) := by
          rw [← Sync.afterCursor_iff]
          simp [hb]
        push_neg at hnb
        rcases (Sync.afterCursor_iff t0 i0 lastRow).mp hafter_last with
          hlt | ⟨heq, hi⟩
        · have h1 : ¬ (lastRow.CREATED_TIME < r.CREATED_TIME) := by omega
          have h2 : r.CREATED_TIME ≠ lastRow.CREATED_TIME := by omega
          simp [Sync.afterCursor, h1, h2]
        · by_cases hrt : r.CREATED_TIME = t0
          · have hfalse : Sync.lexLt i0 r.TASK_ID = false := by
              cases hv : Sync.lexLt i0 r.TASK_ID
              · rfl
              · exact absurd hv (hnb.2 hrt)
            have h1 : ¬ (lastRow.CREATED_TIME < r.CREATED_TIME) := by omega
            have hlr : Sync.lexLt lastRow.TASK_ID r.TASK_ID = false := by
              cases hv : Sync.lexLt lastRow.TASK_ID r.TASK_ID
              · rfl
              · have h3 := Sync.lexLt_trans i0 lastRow.TASK_ID r.TASK_ID hi hv
                rw [h3] at hfalse
                cases hfalse
            simp [Sync.afterCursor, h1, hlr]
          · have h1 : ¬ (lastRow.CREATED_TIME < r.CREATED_TIME) := by omega
            have h2 : r.CREATED_TIME ≠ lastRow.CREATED_TIME := by omega
            simp [Sync.afterCursor, h1, h2]
    simp only [Sync.fetch_new_rows, horz2, hfilter]
    rfl

/-- C8 witness: the spec's example batch `(1,"5"), (1,"7"), (2,"1")`
processed from cursor `(0,"0")` persists cursor `(2,"1")` and a refetch
returns zero rows. -/
theorem C8_cursor_monotonic_witness :
    Sync.fetch_new_rows
      [⟨[53], 1, none, none, none, none, none, none, none, none⟩,
       ⟨[55], 1, none, none, none, none, none, none, none, none⟩,
       ⟨[49], 2, none, none, none, none, none, none, none, none⟩]
      (some 2) (some [49]) = [] :=
  (C8_cursor_monotonic ⟨fun _ => none, fun _ => false⟩ 0
    [⟨[53], 1, none, none, none, none, none, none, none, none⟩,
     ⟨[55], 1, none, none, none, none, none, none, none, none⟩,
     ⟨[49], 2, none, none, none, none, none, none, none, none⟩]
    ⟨⟨some 0, some [48], none⟩, fun _ => none⟩ 0 [48]
    ⟨[49], 2, none, none, none, none, none, none, none, none⟩
    rfl rfl (by decide) (by decide) (by decide)).2.2.2

/-- C9: implicit frame effect of cursor persistence: `save_progress` called
without a download timestamp (as `run_once` does after each item) rewrites
the checkpoint with no `last_download_time` field — whatever last-download
timestamp was stored before is erased rather than preserved, so after a
`run_once` that processed at least one row the checkpoint's
`last_download_time` is gone. -/
theorem C9_download_time_erased (created : Option Nat)
    (task : Option (List Nat)) (server : FS) (now : Nat)
    (table : List Sync.Row) (st : Sync.SyncState) (d : Nat)
    (hprev : st.progress.last_download_time = some d)
    (hne : Sync.fetch_new_rows table st.progress.last_created_time
      st.progress.last_task_id ≠ []) :
    (Sync.save_progress created task none).last_download_time = none ∧
      (Sync.run_once server now table st).progress.last_download_time =
        none := by
  constructor
  · rfl
  · have hr := List.getLast?_eq_getLast
      (Sync.fetch_new_rows table st.progress.last_created_time
        st.progress.last_task_id) hne
    rw [Sync.run_once_progress_getLast server now table st _ hr]
    rfl

/-- C9 witness: a stored download time disappears after one processed
row. -/
theorem C9_download_time_erased_witness :
    (Sync.run_once ⟨fun _ => none, fun _ => false⟩ 0
      [⟨[49], 2, none, none, none, none, none, none, none, none⟩]
      ⟨⟨none, none, some 5⟩, fun _ => none⟩).progress.last_download_time =
      none :=
  (C9_download_time_erased none none ⟨fun _ => none, fun _ => false⟩ 0
    [⟨[49], 2, none, none, none, none, none, none, none, none⟩]
    ⟨⟨none, none, some 5⟩, fun _ => none⟩ 5 rfl (by decide)).2

/-- C10 witness: a header name containing `..\` separators is used as the
save path verbatim. -/
theorem C10_saved_filename_witness :
    (Client.receive_image
        (toBytesBE 4 ([46, 46, 92, 97] : List Nat).length ++
          [46, 46, 92, 97] ++ toBytesBE 8 2 ++ [5, 6])
        [100]).1 =
      Client.RecvResult.saved (pathJoin [100] [46, 46, 92, 97])
        ([5, 6].take 2) :=
  (C10_saved_filename [100] [46, 46, 92, 97] [5, 6] 2 (by decide)
    (by decide) (by decide) (by decide) (by decide)).1

end DataTransmission
